import Mathlib

/-!
Verification of the comment-classification and prompt/response pipeline of
`src/app.py` (the "Empathetic Code Reviewer" application).

The Python source is shallowly embedded: every pure fragment of the pipeline
becomes an executable Lean definition, translated clause by clause from the
source.  Python strings are modelled as Lean `String` / `List Char`; Python
`dict`s appearing as JSON values are modelled as association lists; the
completion client (`self.client.chat.completions.create`, which either returns
a response object or raises) is modelled as a function into `Except String
String`.  `json.loads` / `json.dumps` (Python standard library, used by the
source at lines 45, 300) are embedded as an executable JSON parser and
serializer over an inductive value type.

Known representational limits of the embedding, stated once here:
* `str.lower()` is embedded as ASCII lowercasing (the keyword tables of the
  source are pure ASCII).
* `\uXXXX` escapes denoting lone UTF-16 surrogates are rejected by the
  embedded JSON parser (Python would build an unpaired-surrogate `str`,
  which a Lean `String` cannot represent).
* Python's recursion limit (which makes `json.loads` raise on inputs nested
  thousands of levels deep) is not modelled; the embedded parser's fuel
  (`length + 1`) always suffices for well-formed input.
-/

namespace CodeReviewer

/-! ## Python string primitives used by the source -/

/-- The code points for which Python's `str.strip()` (no argument) removes a
character: `\t \n \v \f \r`, space, the file/group/record/unit separators,
NEL, NBSP and the Unicode space category, as tested by CPython's
`Py_UNICODE_ISSPACE`. -/
def pyIsSpace (c : Char) : Bool :=
  c.toNat ∈ ([9, 10, 11, 12, 13, 28, 29, 30, 31, 32, 0x85, 0xa0, 0x1680,
    0x2000, 0x2001, 0x2002, 0x2003, 0x2004, 0x2005, 0x2006, 0x2007, 0x2008,
    0x2009, 0x200a, 0x2028, 0x2029, 0x202f, 0x205f, 0x3000] : List Nat)

/-- Python `s.strip()` on a list of characters. -/
def pyStripL (cs : List Char) : List Char :=
  ((cs.dropWhile pyIsSpace).reverse.dropWhile pyIsSpace).reverse

/-- Python `s.strip()`. -/
def pyStrip (s : String) : String := String.mk (pyStripL s.data)

/-- Python `needle in hay` for strings (substring containment; the empty
needle is contained in everything). -/
def pyIn (needle hay : List Char) : Bool :=
  match hay with
  | [] => needle.isEmpty
  | _ :: t => needle.isPrefixOf hay || pyIn needle t

/-- Python `str.lower()`, restricted to ASCII (see the header note). -/
def pyLower (cs : List Char) : List Char := cs.map Char.toLower

/-- Python `s.find(c)` for a single character: index of the first
occurrence, if any (`-1` in Python becomes `none`). -/
def pyFindChar (cs : List Char) (c : Char) : Option Nat :=
  cs.findIdx? (· == c)

/-- Python `s.rfind(c)` for a single character: index of the last
occurrence, if any. -/
def pyRfindChar (cs : List Char) (c : Char) : Option Nat :=
  (pyFindChar cs.reverse c).map (fun i => cs.length - 1 - i)

/-- Python `s[a:b]` for `0 ≤ a ≤ b` (slice from `a` inclusive to `b`
exclusive). -/
def pySlice (cs : List Char) (a b : Nat) : List Char :=
  (cs.drop a).take (b - a)

/-- Python `str.title()`, restricted to ASCII: the first letter of every
maximal alphabetic run is uppercased, the rest lowercased (`app.py` applies
it to lower-case language tags only). -/
def pyTitleL : List Char → (prevAlpha : Bool) → List Char
  | [], _ => []
  | c :: rest, prevAlpha =>
    if c.isAlpha then
      (if prevAlpha then c.toLower else c.toUpper) :: pyTitleL rest true
    else
      c :: pyTitleL rest false

/-- Python `s.title()`. -/
def pyTitle (s : String) : String := String.mk (pyTitleL s.data false)

/-! ## Tone classifier — `EmpatheticCodeReviewer.analyze_comment_severity`
(`src/app.py` lines 189-200) -/

/-- `harsh_indicators` (line 190). -/
def harsh_indicators : List String :=
  ["bad", "wrong", "terrible", "awful", "stupid", "inefficient", "don't",
   "never", "horrible"]

/-- `neutral_indicators` (line 191). -/
def neutral_indicators : List String :=
  ["consider", "might", "could", "suggest", "perhaps"]

/-- `analyze_comment_severity` (lines 189-200): lower-case the comment,
count contained harsh and neutral keywords, and classify with harsh taking
precedence. -/
def analyze_comment_severity (comment : String) : String :=
  let comment_lower := pyLower comment.data
  let harsh_count := harsh_indicators.countP (fun i => pyIn i.data comment_lower)
  let neutral_count := neutral_indicators.countP (fun i => pyIn i.data comment_lower)
  if harsh_count > 0 then "harsh"
  else if neutral_count > 0 then "neutral"
  else "constructive"

/-- Whether some harsh keyword occurs in the lower-cased comment. -/
def hasHarshKeyword (comment : String) : Bool :=
  harsh_indicators.any (fun i => pyIn i.data (pyLower comment.data))

/-- Whether some neutral keyword occurs in the lower-cased comment. -/
def hasNeutralKeyword (comment : String) : Bool :=
  neutral_indicators.any (fun i => pyIn i.data (pyLower comment.data))

/-! ## Language detector — `EmpatheticCodeReviewer.get_language_from_code`
(`src/app.py` lines 202-216)

The source matches a fixed table of regular expressions with `re.search(…,
re.MULTILINE)`.  The patterns only use literal characters, the classes `\s`
and `\w`, the quantifiers `+` and `*`, and the `$` anchor, so they are
embedded as token lists for a small backtracking matcher with exactly those
constructs. -/

/-- A character class of the source's patterns: a literal character, `\s`
(Python whitespace, modelled on its ASCII members), or `\w` (modelled on its
ASCII members; all snippets of the table are ASCII-directed). -/
inductive CClass where
  | chr (c : Char)
  | ws
  | word
deriving DecidableEq

/-- Whether a character belongs to a class. -/
def classMatch : CClass → Char → Bool
  | .chr c, x => x == c
  | .ws, x => x == ' ' || x == '\t' || x == '\n' || x == '\r' ||
      x == '\x0b' || x == '\x0c'
  | .word, x => x.isAlphanum || x == '_'

/-- One token of a pattern: a single class occurrence, a starred class, or
the MULTILINE `$` anchor (end of input or just before a newline). -/
inductive RTok where
  | one (k : CClass)
  | star (k : CClass)
  | eol
deriving DecidableEq

/-- Backtracking matcher: does the token list match a prefix of `cs`?
`X+` is spelled as `one X, star X` in the token lists below, exactly its
regex meaning. -/
def rmatch : List RTok → List Char → Bool
  | [], _ => true
  | .eol :: rest, cs =>
    (cs.isEmpty || cs.head? == some '\n') && rmatch rest cs
  | .one _ :: _, [] => false
  | .one k :: rest, c :: cs => classMatch k c && rmatch rest cs
  | .star _ :: rest, [] => rmatch rest []
  | .star k :: rest, c :: cs =>
    rmatch rest (c :: cs) || (classMatch k c && rmatch (.star k :: rest) cs)
termination_by toks cs => (cs.length, toks.length)

/-- `re.search(pattern, s, re.MULTILINE)` as a Boolean: the pattern matches
starting at some position of `s` (including the end position). -/
def research (toks : List RTok) (cs : List Char) : Bool :=
  cs.tails.any (rmatch toks)

/-- Literal characters of a pattern. -/
def lits (s : String) : List RTok := s.data.map (fun c => .one (.chr c))

/-- `\s+`. -/
def wsPlus : List RTok := [.one .ws, .star .ws]

/-- `\s*`. -/
def wsStar : List RTok := [.star .ws]

/-- `\w+`. -/
def wordPlus : List RTok := [.one .word, .star .word]

/-- `language_patterns` (lines 203-212), in the source's insertion order,
each regex hand-compiled to matcher tokens. -/
def language_patterns : List (String × List (List RTok)) :=
  [("python",
     [lits "def" ++ wsPlus ++ wordPlus ++ wsStar ++ lits "(",      -- def\s+\w+\s*\(
      lits "import" ++ wsPlus ++ wordPlus,                         -- import\s+\w+
      lits "from" ++ wsPlus ++ wordPlus ++ wsPlus ++ lits "import", -- from\s+\w+\s+import
      lits ":" ++ wsStar ++ [.eol]]),                              -- :\s*$
   ("javascript",
     [lits "function" ++ wsPlus ++ wordPlus ++ wsStar ++ lits "(", -- function\s+\w+\s*\(
      lits "=>" ++ wsStar ++ [.one (.chr '{')],                    -- =>\s*{
      lits "var" ++ wsPlus ++ wordPlus,                            -- var\s+\w+
      lits "let" ++ wsPlus ++ wordPlus,                            -- let\s+\w+
      lits "const" ++ wsPlus ++ wordPlus]),                        -- const\s+\w+
   ("java",
     [lits "public" ++ wsPlus ++ lits "class",                     -- public\s+class
      lits "private" ++ wsPlus ++ wordPlus,                        -- private\s+\w+
      lits "public" ++ wsPlus ++ lits "static" ++ wsPlus ++ lits "void"
        ++ wsPlus ++ lits "main"]),                                -- public\s+static\s+void\s+main
   ("cpp",
     [lits "#include" ++ wsStar ++ lits "<",                       -- #include\s*<
      lits "int" ++ wsPlus ++ lits "main" ++ wsStar ++ lits "(",   -- int\s+main\s*\(
      lits "std::",                                                -- std::
      lits "cout" ++ wsStar ++ lits "<<"]),                        -- cout\s*<<
   ("c",
     [lits "#include" ++ wsStar ++ lits "<",                       -- #include\s*<
      lits "int" ++ wsPlus ++ lits "main" ++ wsStar ++ lits "(",   -- int\s+main\s*\(
      lits "printf" ++ wsStar ++ lits "("]),                       -- printf\s*\(
   ("go",
     [lits "func" ++ wsPlus ++ wordPlus ++ wsStar ++ lits "(",     -- func\s+\w+\s*\(
      lits "package" ++ wsPlus ++ wordPlus,                        -- package\s+\w+
      lits "import" ++ wsStar ++ lits "("]),                       -- import\s*\(
   ("rust",
     [lits "fn" ++ wsPlus ++ wordPlus ++ wsStar ++ lits "(",       -- fn\s+\w+\s*\(
      lits "use" ++ wsPlus ++ wordPlus,                            -- use\s+\w+
      lits "let" ++ wsPlus ++ lits "mut"]),                        -- let\s+mut
   ("php",
     [lits "<?php",                                                -- <\?php
      lits "function" ++ wsPlus ++ wordPlus ++ wsStar ++ lits "(", -- function\s+\w+\s*\(
      lits "$" ++ wordPlus])]                                      -- \$\w+

/-- The `for lang, patterns in …: if any(re.search(…)): return lang` loop of
`get_language_from_code` (lines 213-216). -/
def detectLoop (cs : List Char) : List (String × List (List RTok)) → String
  | [] => "python"
  | (lang, patterns) :: rest =>
    if patterns.any (fun p => research p cs) then lang else detectLoop cs rest

/-- `get_language_from_code` (lines 202-216). -/
def get_language_from_code (code_snippet : String) : String :=
  detectLoop code_snippet.data language_patterns

/-! ## JSON — embedding of `json.loads` / `json.dumps` (Python stdlib,
used by `src/app.py` at lines 45 and 300)

Numeric literals are kept as their source token (`JValue.num`): the pipeline
never computes with numbers, so their `int`/`float` conversion is not
modelled.  Python's `json` also accepts the non-standard constants `NaN`,
`Infinity` and `-Infinity`; they are kept as tokens too. -/

inductive JValue where
  | null
  | bool (b : Bool)
  | num (token : String)
  | str (s : String)
  | arr (elems : List JValue)
  | obj (fields : List (String × JValue))

/-- JSON whitespace (Python `json`'s `_ws`: space, tab, newline, carriage
return). -/
def jsonWs (c : Char) : Bool :=
  c == ' ' || c == '\t' || c == '\n' || c == '\r'

/-- Drop leading JSON whitespace. -/
def skipJsonWs (cs : List Char) : List Char := cs.dropWhile jsonWs

/-- Value of one hex digit. -/
def hexVal (c : Char) : Option Nat :=
  if '0' ≤ c ∧ c ≤ '9' then some (c.toNat - 48)
  else if 'a' ≤ c ∧ c ≤ 'f' then some (c.toNat - 87)
  else if 'A' ≤ c ∧ c ≤ 'F' then some (c.toNat - 55)
  else none

/-- The single-character short escapes (`\" \\ \/ \b \f \n \r \t`). -/
def shortEscape (e : Char) : Option Char :=
  if e = '"' then some '"'
  else if e = '\\' then some '\\'
  else if e = '/' then some '/'
  else if e = 'b' then some (Char.ofNat 8)
  else if e = 'f' then some (Char.ofNat 12)
  else if e = 'n' then some '\n'
  else if e = 'r' then some '\r'
  else if e = 't' then some '\t'
  else none

/-- Combine the low-surrogate digits of a `\uXXXX\uXXXX` surrogate pair:
`n` is the high surrogate already read. -/
def decodeU2 (n : Nat) (he hf hg hh : Option Nat) : Option (Char × Nat) :=
  match he, hf, hg, hh with
  | some e, some f, some g, some h =>
    let m := ((e * 16 + f) * 16 + g) * 16 + h
    if 0xdc00 ≤ m ∧ m < 0xe000 then
      some (Char.ofNat (0x10000 + (n - 0xd800) * 0x400 + (m - 0xdc00)), 11)
    else none
  | _, _, _, _ => none

/-- Read the low-surrogate escape that must follow a high surrogate `n`. -/
def decodeULow (n : Nat) : List Char → Option (Char × Nat)
  | '\\' :: 'u' :: e :: f :: g :: h :: _ =>
    decodeU2 n (hexVal e) (hexVal f) (hexVal g) (hexVal h)
  | _ => none

/-- Interpret the code unit `n` of a `\uXXXX` escape: a non-surrogate
stands alone; a high surrogate must be followed by a low-surrogate escape
(combined into one character); a *lone* surrogate is rejected (see the
header note). -/
def decodeUVal (n : Nat) (rest : List Char) : Option (Char × Nat) :=
  if n < 0xd800 ∨ 0xe000 ≤ n then some (Char.ofNat n, 5)
  else if n < 0xdc00 then decodeULow n rest
  else none

/-- Assemble the four hex digits of a `\uXXXX` escape. -/
def decodeU1 (ha hb hc hd : Option Nat) (rest : List Char) :
    Option (Char × Nat) :=
  match ha, hb, hc, hd with
  | some a, some b, some c, some d =>
    decodeUVal (((a * 16 + b) * 16 + c) * 16 + d) rest
  | _, _, _, _ => none

/-- Decode one escape sequence (the text after the backslash): the decoded
character and how many input characters the sequence occupies. -/
def decodeEscape : List Char → Option (Char × Nat)
  | 'u' :: a :: b :: c :: d :: rest =>
    decodeU1 (hexVal a) (hexVal b) (hexVal c) (hexVal d) rest
  | e :: _ => (shortEscape e).map (fun c => (c, 1))
  | [] => none

/-- Parse the body of a JSON string (the opening quote already consumed) up
to the closing quote: handles escapes via `decodeEscape` and rejects raw
control characters (Python's `strict=True` default).  Structural recursion
on fuel; every step consumes at least one input character, so fuel
`length + 1` (supplied by the `parseStringBody` wrapper) always suffices. -/
def parseStringBodyF : Nat → List Char → Option (List Char × List Char)
  | 0, _ => none
  | _ + 1, [] => none
  | fuel + 1, c :: rest =>
    if c = '"' then some ([], rest)
    else if c = '\\' then
      match decodeEscape rest with
      | some (ch, k) =>
        (parseStringBodyF fuel (rest.drop k)).map (fun p => (ch :: p.1, p.2))
      | none => none
    else if c.toNat < 0x20 then none
    else (parseStringBodyF fuel rest).map (fun p => (c :: p.1, p.2))

/-- The body of a JSON string, with sufficient fuel. -/
def parseStringBody (cs : List Char) : Option (List Char × List Char) :=
  parseStringBodyF (cs.length + 1) cs

/-- Digits prefix of a character list. -/
def spanDigits (cs : List Char) : List Char × List Char :=
  (cs.takeWhile Char.isDigit, cs.dropWhile Char.isDigit)

/-- The optional fraction part `(\.\d+)?` of Python `json`'s number regex:
consumed only when a digit follows the dot. -/
def parseFrac (cs : List Char) : List Char × List Char :=
  match cs with
  | '.' :: t =>
    match spanDigits t with
    | ([], _) => ([], cs)
    | (ds, t2) => ('.' :: ds, t2)
  | _ => ([], cs)

/-- The optional exponent part `([eE][-+]?\d+)?`: consumed only when digits
follow. -/
def parseExp (cs : List Char) : List Char × List Char :=
  match cs with
  | e :: t =>
    if e = 'e' ∨ e = 'E' then
      match t with
      | s :: t1 =>
        if s = '+' ∨ s = '-' then
          match spanDigits t1 with
          | ([], _) => ([], cs)
          | (ds, t2) => (e :: s :: ds, t2)
        else
          match spanDigits t with
          | ([], _) => ([], cs)
          | (ds, t2) => (e :: ds, t2)
      | [] => ([], cs)
    else ([], cs)
  | [] => ([], cs)

/-- A JSON number per Python `json`'s `NUMBER_RE`:
`(-?(?:0|[1-9]\d*))(\.\d+)?([eE][-+]?\d+)?`, kept as its token. -/
def parseNumber (cs : List Char) : Option (JValue × List Char) :=
  let (neg, cs1) : List Char × List Char :=
    match cs with
    | '-' :: t => (['-'], t)
    | _ => ([], cs)
  match cs1 with
  | '0' :: t =>
    let (fr, t1) := parseFrac t
    let (ex, t2) := parseExp t1
    some (.num (String.mk (neg ++ '0' :: (fr ++ ex))), t2)
  | c :: t =>
    if c.isDigit then
      let (ds, t0) := spanDigits (c :: t)
      let (fr, t1) := parseFrac t0
      let (ex, t2) := parseExp t1
      some (.num (String.mk (neg ++ ds ++ fr ++ ex)), t2)
    else none
  | [] => none

/-- `dict` insertion: a later binding for an existing key overwrites in
place, a new key is appended (CPython `dict` semantics, used because the
decoder ends with `dict(pairs)`). -/
def dictInsert (m : List (String × JValue)) (k : String) (v : JValue) :
    List (String × JValue) :=
  match m with
  | [] => [(k, v)]
  | (k', v') :: rest =>
    if k' == k then (k', v) :: rest else (k', v') :: dictInsert rest k v

/-- `dict(pairs)`. -/
def pairsToDict (ps : List (String × JValue)) : List (String × JValue) :=
  ps.foldl (fun m kv => dictInsert m kv.1 kv.2) []

/-- The literal tokens of Python's scanner — `null`, `true`, `false` and
the non-standard constants `NaN`, `Infinity`, `-Infinity`, each recognized
by direct text comparison — followed by the number regex. -/
def parseConst (cs : List Char) : Option (JValue × List Char) :=
  if "null".data.isPrefixOf cs then some (.null, cs.drop 4)
  else if "true".data.isPrefixOf cs then some (.bool true, cs.drop 4)
  else if "false".data.isPrefixOf cs then some (.bool false, cs.drop 5)
  else if "NaN".data.isPrefixOf cs then some (.num "NaN", cs.drop 3)
  else if "Infinity".data.isPrefixOf cs then some (.num "Infinity", cs.drop 8)
  else if "-Infinity".data.isPrefixOf cs then some (.num "-Infinity", cs.drop 9)
  else parseNumber cs

mutual

/-- One JSON value, by recursive descent with fuel (each level of nesting
consumes at least one character, so `length + 1` fuel always suffices). -/
def parseValue : Nat → List Char → Option (JValue × List Char)
  | 0, _ => none
  | fuel + 1, cs =>
    match cs with
    | '"' :: rest =>
      (parseStringBody rest).map (fun p => (JValue.str (String.mk p.1), p.2))
    | '{' :: rest =>
      (parseMembers fuel true (skipJsonWs rest)).map
        (fun p => (JValue.obj (pairsToDict p.1), p.2))
    | '[' :: rest =>
      (parseElems fuel true (skipJsonWs rest)).map
        (fun p => (JValue.arr p.1, p.2))
    | _ => parseConst cs

/-- The members of an object, positioned at a key (or at `}` when
`allowEnd` is true, i.e. directly after `{`). -/
def parseMembers : Nat → Bool → List Char →
    Option (List (String × JValue) × List Char)
  | 0, _, _ => none
  | _ + 1, true, '}' :: rest => some ([], rest)
  | fuel + 1, _, '"' :: rest =>
    match parseStringBody rest with
    | none => none
    | some (key, r1) =>
      match skipJsonWs r1 with
      | ':' :: r2 =>
        match parseValue fuel (skipJsonWs r2) with
        | none => none
        | some (v, r3) =>
          match skipJsonWs r3 with
          | ',' :: r4 =>
            (parseMembers fuel false (skipJsonWs r4)).map
              (fun p => ((String.mk key, v) :: p.1, p.2))
          | '}' :: r4 => some ([(String.mk key, v)], r4)
          | _ => none
      | _ => none
  | _ + 1, _, _ => none

/-- The elements of an array, positioned at a value (or at `]` when
`allowEnd` is true, i.e. directly after `[`). -/
def parseElems : Nat → Bool → List Char → Option (List JValue × List Char)
  | 0, _, _ => none
  | _ + 1, true, ']' :: rest => some ([], rest)
  | fuel + 1, _, cs =>
    match parseValue fuel cs with
    | none => none
    | some (v, r1) =>
      match skipJsonWs r1 with
      | ',' :: r2 =>
        (parseElems fuel false (skipJsonWs r2)).map
          (fun p => (v :: p.1, p.2))
      | ']' :: r2 => some ([v], r2)
      | _ => none

end

/-- `json.loads`: exactly one value surrounded by optional whitespace, or
failure (Python raises `JSONDecodeError`). -/
def loadsJson (s : String) : Option JValue :=
  let cs := skipJsonWs s.data
  match parseValue (cs.length + 1) cs with
  | some (v, rest) => if (skipJsonWs rest).isEmpty then some v else none
  | none => none

/-- Lower-case hex digit (Python `json` emits lower case). -/
def hexDigit (n : Nat) : Char :=
  if n < 10 then Char.ofNat (48 + n) else Char.ofNat (87 + n)

/-- Four hex digits of a code unit. -/
def hex4 (n : Nat) : List Char :=
  [hexDigit (n / 4096 % 16), hexDigit (n / 256 % 16),
   hexDigit (n / 16 % 16), hexDigit (n % 16)]

/-- `json.dumps`'s escaping of one character with the default
`ensure_ascii=True` (CPython's `ESCAPE_DCT`/`py_encode_basestring_ascii`):
quote, backslash and the five short control escapes, `\uXXXX` for the other
control and all non-ASCII characters, surrogate pairs above `0xffff`. -/
def escChar (c : Char) : List Char :=
  if c = '"' then ['\\', '"']
  else if c = '\\' then ['\\', '\\']
  else if c = '\n' then ['\\', 'n']
  else if c = '\r' then ['\\', 'r']
  else if c = '\t' then ['\\', 't']
  else if c = Char.ofNat 8 then ['\\', 'b']
  else if c = Char.ofNat 12 then ['\\', 'f']
  else if c.toNat < 0x20 then '\\' :: 'u' :: hex4 c.toNat
  else if c.toNat < 0x7f then [c]
  else if c.toNat < 0x10000 then '\\' :: 'u' :: hex4 c.toNat
  else
    '\\' :: 'u' :: hex4 (0xd800 + (c.toNat - 0x10000) / 0x400) ++
      '\\' :: 'u' :: hex4 (0xdc00 + (c.toNat - 0x10000) % 0x400)

/-- A JSON string literal for `s`. -/
def encodeString (s : String) : List Char :=
  '"' :: (s.data.map escChar).flatten ++ ['"']

/-- Interleave a separator. -/
def joinSep (sep : List Char) : List (List Char) → List Char
  | [] => []
  | [x] => x
  | x :: y :: rest => x ++ sep ++ joinSep sep (y :: rest)

/-- One `"key": "value"` member as `json.dumps` renders it (the default
item separator `": "`). -/
def encPair (kv : String × String) : List Char :=
  encodeString kv.1 ++ ':' :: ' ' :: encodeString kv.2

/-- The members of a dumped object, joined by the default separator `", "`. -/
def encMembers (fields : List (String × String)) : List Char :=
  joinSep (", ".data) (fields.map encPair)

/-- `json.dumps` of a `dict` whose values are strings, with the default
separators `", "` and `": "`. -/
def dumpsStrObj (fields : List (String × String)) : List Char :=
  '{' :: encMembers fields ++ ['}']

/-! ## Response normalization — body of
`EmpatheticCodeReviewer.generate_empathetic_feedback` (lines 271-317) -/

/-- The fence-stripping step (lines 284-291): remove a leading
```` ```json ```` or ```` ``` ```` marker (after which the text is stripped
again) and, if the stripped remainder ends with ```` ``` ````, remove that
too. -/
def stripFences (t : List Char) : List Char :=
  if "```json".data.isPrefixOf t then
    let t1 := pyStripL (t.drop 7)
    if "```".data.isSuffixOf t1 then pyStripL (t1.take (t1.length - 3)) else t1
  else if "```".data.isPrefixOf t then
    let t1 := pyStripL (t.drop 3)
    if "```".data.isSuffixOf t1 then pyStripL (t1.take (t1.length - 3)) else t1
  else t

/-- The brace-extraction step (lines 293-298): slice from the first `{` to
the last `}` when both exist in that order, else keep the text. -/
def braceSlice (t : List Char) : List Char :=
  match pyFindChar t '{', pyRfindChar t '}' with
  | some first_brace, some last_brace =>
    if first_brace < last_brace then pySlice t first_brace (last_brace + 1)
    else t
  | _, _ => t

/-- The text handed to `json.loads` for a raw completion text: strip,
remove fences, slice to the outermost braces (lines 281-298). -/
def extractJsonText (content : String) : String :=
  String.mk (braceSlice (stripFences (pyStripL content.data)))

/-- The fields of the fallback returned from the
`except json.JSONDecodeError` branch (lines 302-309). -/
def jsonFallbackFields (language : String) : List (String × JValue) :=
  [("positive_rephrasing",
    .str "Let's explore how we can enhance this aspect of the code together."),
   ("the_why",
    .str "This improvement follows software engineering best practices for maintainable and readable code."),
   ("suggested_improvement",
    .str "// Example improvement (language-dependent) would go here"),
   ("resource_link",
    .str (if language == "python" then "https://docs.python.org/3/tutorial/"
          else "https://developer.mozilla.org/"))]

/-- The fallback returned from the `except json.JSONDecodeError` branch
(lines 302-309). -/
def jsonFallback (language : String) : JValue := .obj (jsonFallbackFields language)

/-- The fallback returned from the `except Exception` branch — the
completion call raised (lines 310-317). -/
def apiFallback (language : String) : JValue := .obj
  [("positive_rephrasing",
    .str "There's a great opportunity to enhance this code."),
   ("the_why",
    .str "Following established patterns improves code quality and maintainability."),
   ("suggested_improvement",
    .str ("// Code improvement example for " ++ language)),
   ("resource_link",
    .str (if language == "python" then "https://docs.python.org/3/tutorial/"
          else "https://developer.mozilla.org/"))]

/-- The normalization path applied to a successfully returned completion
text (lines 281-309): parse the extracted text, or fall back. -/
def normalizeResponse (content language : String) : JValue :=
  match loadsJson (extractJsonText content) with
  | some v => v
  | none => jsonFallback language

/-- Field lookup in a parsed object. -/
def jLookup (fields : List (String × JValue)) (k : String) : Option JValue :=
  (fields.find? (fun kv => kv.1 == k)).map Prod.snd

/-- Whether a looked-up field is present and holds a string. -/
def isStringField : Option JValue → Bool
  | some (.str _) => true
  | _ => false

/-- The shape the claims call "a record with exactly four non-null string
fields". -/
def isFourFieldRecord : JValue → Bool
  | .obj fields =>
      fields.length == 4 &&
      ["positive_rephrasing", "the_why", "suggested_improvement",
       "resource_link"].all (fun k => isStringField (jLookup fields k))
  | _ => false

/-! ## Prompt builders (lines 218-269 and 319-337) -/

/-- The snippet sanitizer (line 237): each left-to-right occurrence of
```` ``` ```` is replaced by a backtick, U+200B ZERO WIDTH SPACE, and two
backticks — `code_snippet.replace("```", "`​``")`. -/
def sanitizeTriple : List Char → List Char
  | '`' :: '`' :: '`' :: rest => '`' :: '\u200b' :: '`' :: '`' :: sanitizeTriple rest
  | c :: rest => c :: sanitizeTriple rest
  | [] => []

/-- `safe_code` (line 237). -/
def safe_code (code_snippet : String) : String :=
  String.mk (sanitizeTriple code_snippet.data)

/-- `tone_instruction` (lines 219-223): the dict lookup keyed by severity.
For a severity other than the three table keys Python would raise
`KeyError`; that case cannot arise (`analyze_comment_severity` only
produces the three keys) and is mapped to `""`. -/
def tone_instruction (severity : String) : String :=
  if severity == "harsh" then
    "extra gentle and encouraging, as the original comment was quite direct and potentially discouraging"
  else if severity == "neutral" then
    "supportive and educational with a collaborative tone"
  else if severity == "constructive" then
    "warm, collaborative, and appreciative of the existing effort"
  else ""

/-- `resource_examples` (lines 225-234). -/
def resource_examples : List (String × String) :=
  [("python", "Python documentation (docs.python.org), PEP 8 style guide"),
   ("javascript", "MDN Web Docs, JavaScript.info, ECMAScript specifications"),
   ("java", "Oracle Java documentation, Java Code Conventions"),
   ("cpp", "cppreference.com, ISO C++ guidelines"),
   ("c", "C standard documentation, K&R C book references"),
   ("go", "Go documentation (golang.org), Effective Go"),
   ("rust", "The Rust Book, Rust by Example"),
   ("php", "PHP Manual, PSR standards")]

/-- `resource_examples.get(language, 'relevant documentation')` (line 255). -/
def resourceHint (language : String) : String :=
  ((resource_examples.find? (fun kv => kv.1 == language)).map Prod.snd).getD
    "relevant documentation"

/-- Template text of the feedback prompt before the first interpolation. -/
def fpPart1 : String :=
  "\nYou are an experienced senior developer and mentor who excels at giving constructive, empathetic code reviews. Your goal is to transform direct criticism into supportive, educational guidance.\n\n**Code Snippet ("

/-- Template text between the language tag and the fence. -/
def fpPart2 : String := "):**\n```"

/-- Template text after the embedded snippet. -/
def fpPart3 : String := "\n```\n\n**Original Comment:** \""

/-- Template text after the embedded comment (the doubled braces of the
f-string are single literal braces here). -/
def fpPart4 : String :=
  "\"\n\nPlease provide a response in the following JSON format:\n\x7b\n    \"positive_rephrasing\": \"A gentle, encouraging version of the feedback that maintains technical accuracy but uses supportive language\",\n    \"the_why\": \"A clear explanation of the underlying software engineering principle, performance concern, or best practice\",\n    \"suggested_improvement\": \"A concrete code example showing the recommended fix\",\n    \"resource_link\": \"A real, helpful documentation link or resource relevant to "

/-- Template text after the resource hint. -/
def fpPart5 : String := "\"\n\x7d\n\n**Important Guidelines:**\n- Be "

/-- Template text after the tone instruction. -/
def fpPart6 : String :=
  "\n- Focus on growth and learning opportunities\n- Explain the reasoning behind best practices\n- Provide specific, actionable improvements\n- Use collaborative language (\"we\", \"let's\") when appropriate\n- Acknowledge what's working well before suggesting improvements\n- Make sure the code example is syntactically correct and directly addresses the issue\n- Keep explanations concise but comprehensive\n\nRespond only with valid JSON.\n"

/-- The per-comment feedback prompt (f-string of lines 240-269): embeds the
*sanitized* snippet in a language-tagged fenced block, the quoted original
comment, the resource hint and the tone instruction. -/
def feedbackPrompt (code_snippet original_comment language severity : String) :
    String :=
  fpPart1 ++ language ++ fpPart2 ++ language ++ "\n" ++ safe_code code_snippet
    ++ fpPart3 ++ original_comment ++ fpPart4 ++ resourceHint language
    ++ fpPart5 ++ tone_instruction severity ++ fpPart6

/-- Template text of the summary prompt before the language tag. -/
def spPart1 : String :=
  "\nBased on the code review feedback provided for this "

/-- Template text between the language tag and the fence. -/
def spPart2 : String :=
  " code snippet, write an encouraging and supportive concluding paragraph that:\n\n1. Acknowledges the developer's effort and current implementation\n2. Highlights the main themes from the feedback (e.g., performance, readability, conventions)\n3. Frames the suggestions as opportunities for growth\n4. Maintains an encouraging, mentor-like tone\n5. Ends with motivation for continued learning\n\n**Code Snippet:**\n```"

/-- Template text after the embedded snippet. -/
def spPart3 : String := "\n```\n\n**Number of feedback items:** "

/-- Template text after the feedback count. -/
def spPart4 : String :=
  "\n\nWrite a warm, encouraging paragraph (3-5 sentences) that would make a developer feel supported and motivated to implement the suggestions.\n"

/-- The holistic summary prompt (f-string of lines 320-337): embeds the
snippet *verbatim* — no `safe_code` sanitization — in a language-tagged
fenced block, and the number of feedback items. -/
def summaryPrompt (code_snippet : String) (all_feedback : List JValue)
    (language : String) : String :=
  spPart1 ++ language ++ spPart2 ++ language ++ "\n" ++ code_snippet
    ++ spPart3 ++ toString all_feedback.length ++ spPart4

/-! ## The pipeline (lines 218-351 and the loop of `main`, lines 467-474)

The completion client — `self.client.chat.completions.create` followed by
`response.choices[0].message.content` — is modelled as a function from the
user prompt to `Except String String`: `.ok content` for a successful call,
`.error e` when the call raises. -/

/-- `generate_empathetic_feedback` (lines 218-317): build the prompt, call
the client, normalize the response; if the call raised, return the static
`except Exception` fallback. -/
def generate_empathetic_feedback (client : String → Except String String)
    (code_snippet original_comment language severity : String) : JValue :=
  match client (feedbackPrompt code_snippet original_comment language severity) with
  | .ok content => normalizeResponse content language
  | .error _ => apiFallback language

/-- The static summary returned from `generate_holistic_summary`'s
`except` branch (line 351). -/
def summaryFallback : String :=
  "Great work on this implementation! The feedback above provides some excellent opportunities to enhance your code's performance, readability, and adherence to best practices. Keep iterating and learning!"

/-- `generate_holistic_summary` (lines 319-351). -/
def generate_holistic_summary (client : String → Except String String)
    (code_snippet : String) (all_feedback : List JValue) (language : String) :
    String :=
  match client (summaryPrompt code_snippet all_feedback language) with
  | .ok content => pyStrip content
  | .error _ => summaryFallback

/-- The per-comment loop of `main` (lines 467-474): classify each comment
and collect its feedback, in input order. -/
def processAllComments (client : String → Except String String)
    (code_snippet language : String) (comments : List String) : List JValue :=
  comments.map (fun comment =>
    generate_empathetic_feedback client code_snippet comment language
      (analyze_comment_severity comment))

/-! ## Mock completion client — `MockGroq._mock_create`
(`src/app.py` lines 30-51) -/

/-- One chat message (`{"role": …, "content": …}`). -/
structure Msg where
  role : String
  content : String

/-- The `user_msg` scan of `_mock_create` (lines 31-36): the content of the
first message whose role is `"user"`, else `""`; `messages=None` (or an
empty list) also yields `""`. -/
def firstUserContent (messages : Option (List Msg)) : String :=
  match messages with
  | none => ""
  | some ms =>
    match ms.find? (fun m => m.role == "user") with
    | some m => m.content
    | none => ""

/-- `mock_json` (lines 39-44); the second value's odd characters are the
byte-exact text of the source file. -/
def mock_json : List (String × String) :=
  [("positive_rephrasing",
    "Nice work ‚Äî the logic is solid. We can make this clearer and slightly more efficient by simplifying the loop and improving naming."),
   ("the_why",
    "Combining boolean checks and using idiomatic constructs improves readability and performance for larger lists."),
   ("suggested_improvement",
    "def get_active_users(users):\n    return [user for user in users if user.is_active and user.profile_complete]"),
   ("resource_link",
    "https://docs.python.org/3/tutorial/datastructures.html#list-comprehensions")]

/-- `summary_text` (lines 47-50). -/
def summary_text : String :=
  "Great work! You've implemented functional logic and with a few changes (readability, naming, and idiomatic constructs) the code will be more maintainable and efficient. Keep iterating!"

/-- `MockGroq._mock_create` (lines 30-51): a pure function — `model`,
`temperature` and `max_tokens` are accepted and ignored, exactly as in the
source, so they are arbitrary types here.  Returns `json.dumps(mock_json)`
when the first user message looks like a JSON-format feedback request, else
the canned summary text. -/
def mock_create {α β γ : Type} (messages : Option (List Msg)) (model : α)
    (temperature : β) (max_tokens : γ) : String :=
  let user_msg := firstUserContent messages
  if pyIn "Respond only with valid JSON".data user_msg.data
      || pyIn "Please provide a response in the following JSON format".data
          user_msg.data then
    String.mk (dumpsStrObj mock_json)
  else
    summary_text

/-! ## Report export — the `markdown_content` f-strings of `main`
(`src/app.py` lines 544-547)

A rendered `FeedbackItem` is modelled as a string-valued association list
(`feedback.get(key, '')` is `pyGet`); the odd characters in the headings
are the byte-exact text of the source file. -/

/-- Python `d.get(k, default)` for a string-valued dict. -/
def pyGet (d : List (String × String)) (k : String) (default : String) :
    String :=
  ((d.find? (fun kv => kv.1 == k)).map Prod.snd).getD default

/-- One `### … Analysis of Comment i …` section (line 546).  The resource
link is always wrapped in square brackets — `[{…}]` — with no hyperlink
target. -/
def exportSection (language : String) (i : Nat) (original_comment : String)
    (feedback : List (String × String)) : String :=
  "### \uf8ffüí° Analysis of Comment " ++ toString i ++ ": \""
    ++ original_comment
    ++ "\"\n\n**\uf8ffü§ù Positive Rephrasing:** "
    ++ pyGet feedback "positive_rephrasing" ""
    ++ "\n\n**\uf8ffüß† The 'Why':** "
    ++ pyGet feedback "the_why" ""
    ++ "\n\n**\uf8ffüîß Suggested Improvement:**\n```"
    ++ language ++ "\n" ++ pyGet feedback "suggested_improvement" ""
    ++ "\n```\n\n**\uf8ffüìö Learn More:** ["
    ++ pyGet feedback "resource_link" "" ++ "]\n\n---\n\n"

/-- The `for i, (original_comment, feedback) in enumerate(zip(…), 1)` loop
(lines 545-546), accumulating one section per comment in input order. -/
def exportSections (language : String) : Nat →
    List (String × List (String × String)) → String
  | _, [] => ""
  | i, (c, fb) :: rest =>
    exportSection language i c fb ++ exportSections language (i + 1) rest

/-- `markdown_content` (lines 544-547): title/timestamp header, the
original snippet in a language-tagged fenced block, the per-comment
sections, then the summary. -/
def markdownExport (ts language code_snippet : String)
    (pairs : List (String × List (String × String))) (summary : String) :
    String :=
  "# \uf8ffüåü Empathetic Code Review Report\n\nGenerated on: "
    ++ ts ++ "\n\n## Original Code (" ++ pyTitle language ++ ")\n\n```"
    ++ language ++ "\n" ++ code_snippet
    ++ "\n```\n\n## Constructive Feedback\n\n"
    ++ exportSections language 1 pairs
    ++ "## \uf8ffüéâ Summary\n\n" ++ summary
    ++ "\n\n*Happy coding! \uf8ffüöÄ*\n"

/-- The number of non-overlapping ```` ``` ```` occurrences, scanned left
to right (a well-formed prompt has exactly its two fence markers). -/
def tripleCount : List Char → Nat
  | '`' :: '`' :: '`' :: rest => tripleCount rest + 1
  | _ :: rest => tripleCount rest
  | [] => 0

/-- **C2.** For every comment, the classifier returns `harsh` exactly when a
harsh keyword is contained in the lower-cased comment (whatever the neutral
count), else `neutral` when a neutral keyword is contained, else
`constructive`. -/
theorem analyze_comment_severity_spec (comment : String) :
    analyze_comment_severity comment =
      (if hasHarshKeyword comment then "harsh"
       else if hasNeutralKeyword comment then "neutral"
       else "constructive") := by
  by_cases h1 : harsh_indicators.any (fun i => pyIn i.data (pyLower comment.data)) = true
  · simp [analyze_comment_severity, hasHarshKeyword, List.countP_pos_iff,
      List.any_eq_true.mp h1, h1]
  · rw [List.any_eq_true] at h1
    by_cases h2 : neutral_indicators.any (fun i => pyIn i.data (pyLower comment.data)) = true
    · rw [List.any_eq_true] at h2
      simp [analyze_comment_severity, hasHarshKeyword, hasNeutralKeyword,
        List.countP_pos_iff, List.any_eq_true, h1, h2]
    · rw [List.any_eq_true] at h2
      simp [analyze_comment_severity, hasHarshKeyword, hasNeutralKeyword,
        List.countP_pos_iff, List.any_eq_true, h1, h2]

/-- **C4 (counterexample).** The claim expects `constructive` for the second
sample comment, but `"bad"` is itself a harsh indicator, so the classifier
returns `harsh` for `"Variable 'u' is a bad name."`. -/
theorem analyze_comment_severity_sample2_harsh :
    analyze_comment_severity "Variable 'u' is a bad name." = "harsh" ∧
      ("harsh" : String) ≠ "constructive" := by
  constructor
  · decide
  · decide

/-- **C4 (amended).** On the three scenario comments the classifier returns
`harsh`, `harsh`, `constructive`: the first contains `"inefficient"`, the
second contains the harsh keyword `"bad"`, and the third contains no harsh
and no neutral keyword. -/
theorem analyze_comment_severity_scenario :
    ["This is inefficient.", "Variable 'u' is a bad name.",
     "Boolean comparison is redundant."].map analyze_comment_severity
      = ["harsh", "harsh", "constructive"] := by decide

/-- **C3.** The detector returns the first tag of the fixed table whose
patterns include one matching somewhere in the snippet (multiline mode), and
`python` when no pattern of any tag matches; being a total function it
always returns a value. -/
theorem get_language_from_code_spec (code_snippet : String) :
    get_language_from_code code_snippet =
      ((language_patterns.find?
          (fun lp => lp.2.any (fun p => research p code_snippet.data))).map
        Prod.fst).getD "python" := by
  unfold get_language_from_code
  induction language_patterns with
  | nil => rfl
  | cons hd tl ih =>
    rcases hd with ⟨lang, patterns⟩
    by_cases h : patterns.any (fun p => research p code_snippet.data) = true
    · simp [detectLoop, List.find?, h]
    · simp only [Bool.not_eq_true] at h
      simp [detectLoop, List.find?, h, ih]

/-! ## Error-handling theorems (C1, C5, C7) -/

/-- **C1 (counterexample).** `"{}"` is well-formed JSON, so the
normalization path returns the parsed empty record as-is — which does not
have the four required fields.  (The code never checks the parsed value's
structure.) -/
theorem normalizeResponse_empty_object_not_four_fields :
    normalizeResponse "\x7b\x7d" "python" = JValue.obj [] ∧
      isFourFieldRecord (JValue.obj []) = false := by
  exact ⟨rfl, rfl⟩

/-- **C1 (amended).** The normalization path is total (never raises): for
every raw completion text and language tag it returns the value parsed from
the extracted text when `json.loads` succeeds — whatever that value's shape
— and otherwise (garbage, empty string, any parse failure) the fixed
`JSONDecodeError` fallback, which does have exactly four non-null string
fields. -/
theorem normalizeResponse_total (content language : String) :
    (∃ v, loadsJson (extractJsonText content) = some v ∧
        normalizeResponse content language = v) ∨
      (loadsJson (extractJsonText content) = none ∧
        normalizeResponse content language = jsonFallback language ∧
        isFourFieldRecord (jsonFallback language) = true) := by
  cases h : loadsJson (extractJsonText content) with
  | some v => exact Or.inl ⟨v, rfl, by simp [normalizeResponse, h]⟩
  | none => exact Or.inr ⟨rfl, by simp [normalizeResponse, h], rfl⟩

/-- **C5.** When the completion call raises (modelled: the client returns
`.error`), `generate_empathetic_feedback` returns the static `except
Exception` fallback instead of propagating, the fallback has the four
fields, the per-comment loop of `main` always yields one feedback item
per comment — no failure aborts the remaining comments — and the summary
step likewise substitutes its static fallback instead of propagating. -/
theorem generate_empathetic_feedback_service_error
    (client : String → Except String String)
    (code_snippet comment language severity err : String)
    (h : client (feedbackPrompt code_snippet comment language severity)
          = .error err) :
    generate_empathetic_feedback client code_snippet comment language severity
        = apiFallback language ∧
      isFourFieldRecord (apiFallback language) = true ∧
      (∀ comments : List String,
        (processAllComments client code_snippet language comments).length
          = comments.length) ∧
      ∀ (client2 : String → Except String String) (snippet lang2 err2 : String)
        (fb : List JValue),
        client2 (summaryPrompt snippet fb lang2) = .error err2 →
        generate_holistic_summary client2 snippet fb lang2 = summaryFallback := by
  refine ⟨?_, rfl, ?_, ?_⟩
  · simp [generate_empathetic_feedback, h]
  · intro comments
    simp [processAllComments]
  · intro client2 snippet lang2 err2 fb h2
    simp [generate_holistic_summary, h2]

/-- Witness for `generate_empathetic_feedback_service_error`: a client that
always raises. -/
theorem generate_empathetic_feedback_service_error_witness :
    generate_empathetic_feedback
        (fun _ => (Except.error "boom" : Except String String))
        "code" "comment" "python" "harsh" = apiFallback "python" ∧
      isFourFieldRecord (apiFallback "python") = true ∧
      (∀ comments : List String,
        (processAllComments (fun _ => (Except.error "boom" : Except String String))
            "code" "python" comments).length = comments.length) ∧
      ∀ (client2 : String → Except String String) (snippet lang2 err2 : String)
        (fb : List JValue),
        client2 (summaryPrompt snippet fb lang2) = .error err2 →
        generate_holistic_summary client2 snippet fb lang2 = summaryFallback :=
  generate_empathetic_feedback_service_error
    (fun _ => (Except.error "boom" : Except String String))
    "code" "comment" "python" "harsh" "boom" rfl

/-- **C7 (counterexample).** "Missing structure" does not trigger the
fallback: `"{}"` parses, so the empty record is returned as-is, not the
fixed fallback item. -/
theorem normalizeResponse_missing_structure_no_fallback :
    normalizeResponse "\x7b\x7d" "rust" = JValue.obj [] ∧
      JValue.obj [] ≠ jsonFallback "rust" ∧
      isFourFieldRecord (JValue.obj []) = false := by
  refine ⟨rfl, ?_, rfl⟩
  intro h
  simp [jsonFallback, jsonFallbackFields] at h

/-- **C7 (amended).** On JSON *parse failure* (not on a successfully parsed
value that merely lacks the fields), the normalization path returns the
fixed fallback record: four string fields, whose `suggested_improvement` is
a fixed generic placeholder and whose `resource_link` depends on the
language tag only through the `language == "python"` test. -/
theorem normalizeResponse_parse_failure_fallback (content language : String)
    (h : loadsJson (extractJsonText content) = none) :
    ∃ fields, normalizeResponse content language = JValue.obj fields ∧
      jLookup fields "suggested_improvement" =
        some (.str "// Example improvement (language-dependent) would go here") ∧
      jLookup fields "resource_link" =
        some (.str (if language == "python"
          then "https://docs.python.org/3/tutorial/"
          else "https://developer.mozilla.org/")) ∧
      isFourFieldRecord (JValue.obj fields) = true := by
  refine ⟨jsonFallbackFields language, ?_, rfl, rfl, rfl⟩
  simp [normalizeResponse, h, jsonFallback]

/-- Witness for `normalizeResponse_parse_failure_fallback` at a concrete
non-JSON completion text. -/
theorem normalizeResponse_parse_failure_fallback_witness :
    loadsJson (extractJsonText "total garbage!") = none ∧
      ∃ fields, normalizeResponse "total garbage!" "rust" = JValue.obj fields ∧
        jLookup fields "suggested_improvement" =
          some (.str "// Example improvement (language-dependent) would go here") ∧
        jLookup fields "resource_link" =
          some (.str (if ("rust" : String) == "python"
            then "https://docs.python.org/3/tutorial/"
            else "https://developer.mozilla.org/")) ∧
        isFourFieldRecord (JValue.obj fields) = true :=
  ⟨rfl, normalizeResponse_parse_failure_fallback "total garbage!" "rust" rfl⟩


/-! ## Auxiliary lemmas for the JSON round trip and the prompt sanitizer -/
theorem hexVal_hexDigit : ∀ n < 16, hexVal (hexDigit n) = some n := by decide

theorem decodeEscape_u (n : Nat) (h1 : n < 0x10000) (h2 : n < 0xd800 ∨ 0xe000 ≤ n)
    (rest : List Char) :
    decodeEscape ('u' :: hex4 n ++ rest) = some (Char.ofNat n, 5) := by
  have e1 := hexVal_hexDigit (n / 4096 % 16) (by omega)
  have e2 := hexVal_hexDigit (n / 256 % 16) (by omega)
  have e3 := hexVal_hexDigit (n / 16 % 16) (by omega)
  have e4 := hexVal_hexDigit (n % 16) (by omega)
  have en : ((n / 4096 % 16 * 16 + n / 256 % 16) * 16 + n / 16 % 16) * 16 + n % 16 = n := by
    omega
  simp only [hex4, List.cons_append, List.nil_append]
  rw [decodeEscape, e1, e2, e3, e4, decodeU1, en, decodeUVal, if_pos h2]

theorem decodeEscape_surr (n : Nat) (h1 : 0x10000 ≤ n) (h2 : n < 0x110000)
    (rest : List Char) :
    decodeEscape ('u' :: hex4 (0xd800 + (n - 0x10000) / 0x400)
        ++ '\\' :: 'u' :: hex4 (0xdc00 + (n - 0x10000) % 0x400) ++ rest)
      = some (Char.ofNat n, 11) := by
  set hi := 0xd800 + (n - 0x10000) / 0x400 with hhi
  set lo := 0xdc00 + (n - 0x10000) % 0x400 with hlo
  have hierange : 0xd800 ≤ hi ∧ hi < 0xdc00 := by
    have : (n - 0x10000) / 0x400 < 0x400 := by omega
    omega
  have lorange : 0xdc00 ≤ lo ∧ lo < 0xe000 := by
    have : (n - 0x10000) % 0x400 < 0x400 := by omega
    omega
  have e1 := hexVal_hexDigit (hi / 4096 % 16) (by omega)
  have e2 := hexVal_hexDigit (hi / 256 % 16) (by omega)
  have e3 := hexVal_hexDigit (hi / 16 % 16) (by omega)
  have e4 := hexVal_hexDigit (hi % 16) (by omega)
  have en : ((hi / 4096 % 16 * 16 + hi / 256 % 16) * 16 + hi / 16 % 16) * 16 + hi % 16 = hi := by
    omega
  have f1 := hexVal_hexDigit (lo / 4096 % 16) (by omega)
  have f2 := hexVal_hexDigit (lo / 256 % 16) (by omega)
  have f3 := hexVal_hexDigit (lo / 16 % 16) (by omega)
  have f4 := hexVal_hexDigit (lo % 16) (by omega)
  have fm : ((lo / 4096 % 16 * 16 + lo / 256 % 16) * 16 + lo / 16 % 16) * 16 + lo % 16 = lo := by
    omega
  have hcomb : 0x10000 + (hi - 0xd800) * 0x400 + (lo - 0xdc00) = n := by
    rw [hhi, hlo]
    omega
  simp only [hex4, List.cons_append, List.nil_append]
  rw [decodeEscape, e1, e2, e3, e4, decodeU1, en, decodeUVal,
    if_neg (by omega), if_pos (by omega), decodeULow]
  rw [f1, f2, f3, f4, decodeU2, fm, if_pos lorange, hcomb]

theorem psbF_backslash (fuel : Nat) (body rest : List Char) (ch : Char)
    (hd : decodeEscape (body ++ rest) = some (ch, body.length)) :
    parseStringBodyF (fuel + 1) ('\\' :: body ++ rest)
      = (parseStringBodyF fuel rest).map (fun p => (ch :: p.1, p.2)) := by
  simp only [parseStringBodyF, List.append_eq]
  rw [if_neg (show ('\\' : Char) ≠ '"' from by decide)]
  rw [hd]
  simp only []
  rw [List.drop_left]
  rw [if_pos trivial]

theorem psbF_plain (fuel : Nat) (c : Char) (h1 : c ≠ '"') (h2 : c ≠ '\\')
    (h3 : 0x20 ≤ c.toNat) (rest : List Char) :
    parseStringBodyF (fuel + 1) (c :: rest)
      = (parseStringBodyF fuel rest).map (fun p => (c :: p.1, p.2)) := by
  simp only [parseStringBodyF]
  rw [if_neg h1, if_neg h2, if_neg (by omega)]

theorem escChar_consume (c : Char) (fuel : Nat) (rest : List Char) :
    parseStringBodyF (fuel + 1) (escChar c ++ rest)
      = (parseStringBodyF fuel rest).map (fun p => (c :: p.1, p.2)) := by
  by_cases h1 : c = '"'
  · subst h1; exact psbF_backslash fuel ['"'] rest _ rfl
  · by_cases h2 : c = '\\'
    · subst h2
      exact psbF_backslash fuel ['\\'] rest _ rfl
    · by_cases h3 : c = '\n'
      · subst h3
        exact psbF_backslash fuel ['n'] rest _ rfl
      · by_cases h4 : c = '\r'
        · subst h4
          exact psbF_backslash fuel ['r'] rest _ rfl
        · by_cases h5 : c = '\t'
          · subst h5
            exact psbF_backslash fuel ['t'] rest _ rfl
          · by_cases h6 : c = Char.ofNat 8
            · subst h6
              exact psbF_backslash fuel ['b'] rest _ rfl
            · by_cases h7 : c = Char.ofNat 12
              · subst h7
                exact psbF_backslash fuel ['f'] rest _ rfl
              · rw [escChar, if_neg h1, if_neg h2, if_neg h3, if_neg h4,
                  if_neg h5, if_neg h6, if_neg h7]
                by_cases h8 : c.toNat < 0x20
                · rw [if_pos h8]
                  have hd : decodeEscape (('u' :: hex4 c.toNat) ++ rest)
                      = some (c, ('u' :: hex4 c.toNat).length) := by
                    have h := decodeEscape_u c.toNat (by omega) (by omega) rest
                    rw [Char.ofNat_toNat] at h
                    simpa [hex4] using h
                  exact psbF_backslash fuel ('u' :: hex4 c.toNat) rest c hd
                · rw [if_neg h8]
                  by_cases h9 : c.toNat < 0x7f
                  · rw [if_pos h9]
                    exact psbF_plain fuel c h1 h2 (by omega) rest
                  · rw [if_neg h9]
                    have hval : c.toNat < 0xd800 ∨
                        (0xdfff < c.toNat ∧ c.toNat < 0x110000) := c.valid
                    by_cases h10 : c.toNat < 0x10000
                    · rw [if_pos h10]
                      have hd : decodeEscape (('u' :: hex4 c.toNat) ++ rest)
                          = some (c, ('u' :: hex4 c.toNat).length) := by
                        have h := decodeEscape_u c.toNat (by omega) (by omega) rest
                        rw [Char.ofNat_toNat] at h
                        simpa [hex4] using h
                      exact psbF_backslash fuel ('u' :: hex4 c.toNat) rest c hd
                    · rw [if_neg h10]
                      have hd : decodeEscape
                          (('u' :: hex4 (0xd800 + (c.toNat - 0x10000) / 0x400)
                            ++ '\\' :: 'u'
                              :: hex4 (0xdc00 + (c.toNat - 0x10000) % 0x400)) ++ rest)
                          = some (c, ('u' :: hex4 (0xd800 + (c.toNat - 0x10000) / 0x400)
                            ++ '\\' :: 'u'
                              :: hex4 (0xdc00 + (c.toNat - 0x10000) % 0x400)).length) := by
                        have h := decodeEscape_surr c.toNat (by omega) (by omega) rest
                        rw [Char.ofNat_toNat] at h
                        simpa [hex4] using h
                      exact psbF_backslash fuel _ rest c hd

theorem psbF_encoded (cs : List Char) (f : Nat) (rest : List Char) :
    parseStringBodyF (f + cs.length + 1) ((cs.map escChar).flatten ++ '"' :: rest)
      = some (cs, rest) := by
  induction cs generalizing f with
  | nil =>
    simp only [List.map_nil, List.flatten_nil, List.nil_append, List.length_nil,
      Nat.add_zero]
    simp [parseStringBodyF]
  | cons c cs ih =>
    have harith : f + (c :: cs).length + 1 = (f + cs.length + 1) + 1 := by
      simp [List.length_cons]
      omega
    rw [harith]
    simp only [List.map_cons, List.flatten_cons, List.append_assoc]
    rw [escChar_consume c (f + cs.length + 1)]
    rw [ih f]
    rfl

set_option maxHeartbeats 1000000 in
theorem escChar_length_pos (c : Char) : 1 ≤ (escChar c).length := by
  rw [escChar]
  split_ifs <;> simp

theorem flatten_escChar_length (cs : List Char) :
    cs.length ≤ ((cs.map escChar).flatten).length := by
  induction cs with
  | nil => simp
  | cons c cs ih =>
    simp only [List.map_cons, List.flatten_cons, List.length_append,
      List.length_cons]
    have := escChar_length_pos c
    omega

theorem parseStringBody_encoded (cs : List Char) (rest : List Char) :
    parseStringBody ((cs.map escChar).flatten ++ '"' :: rest) = some (cs, rest) := by
  unfold parseStringBody
  have hlen : cs.length ≤ ((cs.map escChar).flatten ++ '"' :: rest).length := by
    rw [List.length_append]
    have := flatten_escChar_length cs
    omega
  obtain ⟨f, hf⟩ : ∃ f, ((cs.map escChar).flatten ++ '"' :: rest).length + 1
      = f + cs.length + 1 :=
    ⟨((cs.map escChar).flatten ++ '"' :: rest).length - cs.length, by omega⟩
  rw [hf]
  exact psbF_encoded cs f rest

theorem skipJsonWs_not (c : Char) (h : jsonWs c = false) (l : List Char) :
    skipJsonWs (c :: l) = c :: l := by
  simp [skipJsonWs, List.dropWhile, h]

theorem skipJsonWs_space (l : List Char) :
    skipJsonWs (' ' :: l) = skipJsonWs l := by
  simp [skipJsonWs, List.dropWhile, jsonWs]

theorem parseValue_string (g : Nat) (rest : List Char) :
    parseValue (g + 1) ('"' :: rest)
      = (parseStringBody rest).map (fun p => (JValue.str (String.mk p.1), p.2)) := by
  simp only [parseValue]

theorem encodeString_expand (s : String) (tail : List Char) :
    encodeString s ++ tail = '"' :: ((s.data.map escChar).flatten ++ '"' :: tail) := by
  simp [encodeString]

theorem skipJsonWs_encPair (kv : String × String) (tail : List Char) :
    skipJsonWs (encPair kv ++ tail) = encPair kv ++ tail := by
  rcases kv with ⟨k, v⟩
  simp only [encPair, List.append_assoc, List.cons_append]
  rw [encodeString_expand]
  rw [skipJsonWs_not '"' (by decide)]

theorem skipJsonWs_encMembers (kv : String × String) (t : List (String × String))
    (tail : List Char) :
    skipJsonWs (encMembers (kv :: t) ++ tail) = encMembers (kv :: t) ++ tail := by
  cases t with
  | nil => exact skipJsonWs_encPair kv tail
  | cons b t2 =>
    rw [show encMembers (kv :: b :: t2)
      = encPair kv ++ ',' :: ' ' :: encMembers (b :: t2) from by
        simp [encMembers, joinSep]]
    rw [List.append_assoc]
    exact skipJsonWs_encPair kv _

theorem parseMembers_encPair (f : Nat) (allow : Bool) (k v : String) (rest : List Char) :
    parseMembers (f + 2) allow (encPair (k, v) ++ '}' :: rest)
      = some ([(k, JValue.str v)], rest) := by
  have h2 : f + 2 = (f + 1) + 1 := rfl
  rw [h2]
  simp only [encPair, List.append_assoc, List.cons_append]
  rw [encodeString_expand]
  simp only [parseMembers]
  rw [parseStringBody_encoded]
  simp only []
  rw [skipJsonWs_not ':' (by decide)]
  simp only []
  rw [skipJsonWs_space]
  rw [encodeString_expand]
  rw [skipJsonWs_not '"' (by decide)]
  rw [parseValue_string]
  rw [parseStringBody_encoded]
  rw [Option.map_some']
  dsimp only []
  rw [skipJsonWs_not '}' (by decide)]
  rfl

theorem parseMembers_encMembers (fields : List (String × String)) (f : Nat)
    (allow : Bool) (rest : List Char) (h : fields ≠ []) :
    parseMembers (f + 2 * fields.length) allow (encMembers fields ++ '}' :: rest)
      = some (fields.map (fun kv => (kv.1, JValue.str kv.2)), rest) := by
  induction fields generalizing f allow with
  | nil => exact absurd rfl h
  | cons kv t ih =>
    rcases kv with ⟨k, v⟩
    cases t with
    | nil =>
      have harith : f + 2 * ([(k, v)] : List (String × String)).length = f + 2 := by
        simp
      rw [harith]
      rw [show encMembers [(k, v)] = encPair (k, v) from rfl]
      rw [parseMembers_encPair]
      rfl
    | cons kv2 t2 =>
      have harith : f + 2 * ((k, v) :: kv2 :: t2 : List (String × String)).length
          = (f + 1 + 2 * (kv2 :: t2 : List (String × String)).length) + 1 := by
        simp [List.length_cons]
        omega
      rw [harith]
      rw [show encMembers ((k, v) :: kv2 :: t2)
        = encPair (k, v) ++ ',' :: ' ' :: encMembers (kv2 :: t2) from by
          simp [encMembers, joinSep]]
      simp only [encPair, List.append_assoc, List.cons_append]
      rw [encodeString_expand]
      simp only [parseMembers]
      rw [parseStringBody_encoded]
      simp only []
      rw [skipJsonWs_not ':' (by decide)]
      simp only []
      rw [skipJsonWs_space]
      rw [encodeString_expand]
      rw [skipJsonWs_not '"' (by decide)]
      have hval : f + 1 + 2 * (kv2 :: t2 : List (String × String)).length
          = (f + 2 * (kv2 :: t2 : List (String × String)).length) + 1 := by
        omega
      rw [hval, parseValue_string]
      rw [parseStringBody_encoded]
      rw [Option.map_some']
      dsimp only []
      rw [skipJsonWs_not ',' (by decide)]
      split
      · rename_i r4 heq
        rw [List.cons.injEq] at heq
        rw [← heq.2]
        rw [skipJsonWs_space]
        rw [skipJsonWs_encMembers]
        rw [← hval]
        rw [show f + 1 + 2 * (kv2 :: t2 : List (String × String)).length
          = (f + 1) + 2 * (kv2 :: t2 : List (String × String)).length from rfl]
        rw [ih (f + 1) false (by simp)]
        rfl
      · rename_i r4 heq
        rw [List.cons.injEq] at heq
        exact absurd heq.1 (by decide)
      · rename_i hne1 hne2
        exact absurd rfl (hne1 (' ' :: (encMembers (kv2 :: t2) ++ '}' :: rest)))

theorem parseValue_dumpsStrObj (fields : List (String × String)) (f : Nat)
    (h : fields ≠ []) :
    parseValue (f + 2 * fields.length + 1) (dumpsStrObj fields)
      = some (JValue.obj (pairsToDict
          (fields.map (fun kv => (kv.1, JValue.str kv.2)))), []) := by
  rcases fields with _ | ⟨kv, t⟩
  · exact absurd rfl h
  · rw [show dumpsStrObj (kv :: t) = '{' :: (encMembers (kv :: t) ++ '}' :: [])
      from rfl]
    simp only [parseValue]
    rw [skipJsonWs_encMembers]
    rw [parseMembers_encMembers (kv :: t) f true [] (by simp)]
    rfl

theorem encodeString_length (s : String) : 2 ≤ (encodeString s).length := by
  simp [encodeString]

theorem encPair_length (kv : String × String) : 2 ≤ (encPair kv).length := by
  rcases kv with ⟨k, v⟩
  simp only [encPair, List.length_append, List.length_cons]
  have := encodeString_length k
  omega

theorem encMembers_length (kv : String × String) (t : List (String × String)) :
    2 * (kv :: t : List (String × String)).length
      ≤ (encMembers (kv :: t)).length := by
  induction t generalizing kv with
  | nil =>
    have := encPair_length kv
    simpa [encMembers, joinSep] using this
  | cons b t2 ih =>
    rw [show encMembers (kv :: b :: t2)
      = encPair kv ++ ',' :: ' ' :: encMembers (b :: t2) from by
        simp [encMembers, joinSep]]
    have h1 := encPair_length kv
    have h2 := ih b
    simp only [List.length_cons, List.length_append] at *
    omega

theorem dumpsStrObj_length (fields : List (String × String)) (h : fields ≠ []) :
    2 * fields.length ≤ (dumpsStrObj fields).length := by
  rcases fields with _ | ⟨kv, t⟩
  · exact absurd rfl h
  · rw [dumpsStrObj]
    have := encMembers_length kv t
    simp only [List.length_cons, List.length_append] at *
    omega

theorem loadsJson_dumpsStrObj (fields : List (String × String)) (h : fields ≠ []) :
    loadsJson (String.mk (dumpsStrObj fields))
      = some (JValue.obj (pairsToDict
          (fields.map (fun kv => (kv.1, JValue.str kv.2))))) := by
  rcases fields with _ | ⟨kv, t⟩
  · exact absurd rfl h
  · rw [loadsJson]
    have hd : (String.mk (dumpsStrObj (kv :: t))).data = dumpsStrObj (kv :: t) := rfl
    rw [hd]
    rw [show dumpsStrObj (kv :: t) = '{' :: (encMembers (kv :: t) ++ ['}']) from rfl]
    rw [skipJsonWs_not '{' (by decide)]
    rw [show '{' :: (encMembers (kv :: t) ++ ['}'])
      = dumpsStrObj (kv :: t) from rfl]
    have hlen := dumpsStrObj_length (kv :: t) (by simp)
    obtain ⟨f, hf⟩ : ∃ f, (dumpsStrObj (kv :: t)).length + 1
        = f + 2 * (kv :: t : List (String × String)).length + 1 :=
      ⟨(dumpsStrObj (kv :: t)).length - 2 * (kv :: t : List (String × String)).length,
        by omega⟩
    rw [hf]
    rw [parseValue_dumpsStrObj (kv :: t) f (by simp)]
    rfl

theorem stripFences_lbrace (X : List Char) : stripFences ('{' :: X) = '{' :: X := by
  rw [stripFences]
  rw [if_neg (by rw [show ("```json".data.isPrefixOf ('{' :: X)) = false from rfl]; simp)]
  rw [if_neg (by rw [show ("```".data.isPrefixOf ('{' :: X)) = false from rfl]; simp)]

theorem braceSlice_wrapped (mid : List Char) :
    braceSlice ('{' :: (mid ++ ['}'])) = '{' :: (mid ++ ['}']) := by
  rw [braceSlice]
  have hfind : pyFindChar ('{' :: (mid ++ ['}'])) '{' = some 0 := by
    simp [pyFindChar, List.findIdx?_cons]
  have hrev : ('{' :: (mid ++ ['}'])).reverse = '}' :: (mid.reverse ++ ['{']) := by
    simp
  have hrfind : pyRfindChar ('{' :: (mid ++ ['}'])) '}'
      = some (mid.length + 1) := by
    rw [pyRfindChar, pyFindChar, hrev]
    rw [List.findIdx?_cons]
    simp
  rw [hfind, hrfind]
  dsimp only []
  rw [if_pos (by omega)]
  rw [pySlice]
  simp only [List.drop_zero, Nat.sub_zero]
  rw [show mid.length + 1 + 1 = ('{' :: (mid ++ ['}'])).length from by simp]
  rw [List.take_length]

/-- **C9.** Round trip: when the completion text is, after `strip()`,
exactly `json.dumps` of an object with the four required string fields (no
fences, no surrounding prose), the normalization path returns that object
unchanged — no field modified, added or removed. -/
theorem normalizeResponse_roundtrip (pr why si rl language raw : String)
    (h : pyStrip raw = String.mk (dumpsStrObj
      [("positive_rephrasing", pr), ("the_why", why),
       ("suggested_improvement", si), ("resource_link", rl)])) :
    normalizeResponse raw language
      = JValue.obj
          [("positive_rephrasing", JValue.str pr), ("the_why", JValue.str why),
           ("suggested_improvement", JValue.str si),
           ("resource_link", JValue.str rl)] := by
  have h' : pyStripL raw.data = dumpsStrObj
      [("positive_rephrasing", pr), ("the_why", why),
       ("suggested_improvement", si), ("resource_link", rl)] := by
    have := congrArg String.data h
    simpa [pyStrip] using this
  rw [normalizeResponse, extractJsonText, h']
  rw [show dumpsStrObj
      [("positive_rephrasing", pr), ("the_why", why),
       ("suggested_improvement", si), ("resource_link", rl)]
    = '{' :: (encMembers
      [("positive_rephrasing", pr), ("the_why", why),
       ("suggested_improvement", si), ("resource_link", rl)] ++ ['}']) from rfl]
  rw [stripFences_lbrace, braceSlice_wrapped]
  rw [show '{' :: (encMembers
      [("positive_rephrasing", pr), ("the_why", why),
       ("suggested_improvement", si), ("resource_link", rl)] ++ ['}'])
    = dumpsStrObj
      [("positive_rephrasing", pr), ("the_why", why),
       ("suggested_improvement", si), ("resource_link", rl)] from rfl]
  rw [loadsJson_dumpsStrObj _ (by simp)]
  rfl

/-- Witness for `normalizeResponse_roundtrip` at concrete field values. -/
theorem normalizeResponse_roundtrip_witness :
    pyStrip (String.mk (dumpsStrObj
      [("positive_rephrasing", "a"), ("the_why", "b"),
       ("suggested_improvement", "c"), ("resource_link", "d")]))
      = String.mk (dumpsStrObj
        [("positive_rephrasing", "a"), ("the_why", "b"),
         ("suggested_improvement", "c"), ("resource_link", "d")]) ∧
    normalizeResponse (String.mk (dumpsStrObj
      [("positive_rephrasing", "a"), ("the_why", "b"),
       ("suggested_improvement", "c"), ("resource_link", "d")])) "python"
      = JValue.obj
          [("positive_rephrasing", JValue.str "a"), ("the_why", JValue.str "b"),
           ("suggested_improvement", JValue.str "c"),
           ("resource_link", JValue.str "d")] :=
  ⟨rfl, normalizeResponse_roundtrip "a" "b" "c" "d" "python" _ rfl⟩

theorem sanitizeTriple_cons_ne (c : Char) (r : List Char) (h : c ≠ '`') :
    sanitizeTriple (c :: r) = c :: sanitizeTriple r := by
  simp [sanitizeTriple, h]

theorem sanitizeTriple_bt_cons (d : Char) (r : List Char) (hd : d ≠ '`') :
    sanitizeTriple ('`' :: d :: r) = '`' :: sanitizeTriple (d :: r) := by
  simp [sanitizeTriple, hd]

theorem sanitizeTriple_bt_nil : sanitizeTriple ['`'] = ['`'] := by
  simp [sanitizeTriple]

theorem bt_prefix_sanitize (rest : List Char)
    (h : ['`'].isPrefixOf rest = false) :
    ['`'].isPrefixOf (sanitizeTriple rest) = false := by
  rcases rest with _ | ⟨d, r⟩
  · simp [sanitizeTriple]
  · have hd : d ≠ '`' := by
      intro e
      subst e
      simp [List.isPrefixOf] at h
    rw [sanitizeTriple_cons_ne d r hd]
    simp [List.isPrefixOf]
    exact fun e => absurd e.symm hd

theorem sanitizeTriple_bt_bt_cons (e : Char) (r2 : List Char) (he : e ≠ '`') :
    sanitizeTriple ('`' :: '`' :: e :: r2)
      = '`' :: sanitizeTriple ('`' :: e :: r2) := by
  simp [sanitizeTriple, he]

/-- If the snippet contains no run of four backticks, the sanitized
snippet contains no triple backtick at all: each ```` ``` ```` was broken
by the zero-width space. -/
theorem sanitize_no_triple (cs : List Char) :
    pyIn "````".data cs = false → pyIn "```".data (sanitizeTriple cs) = false := by
  induction cs using sanitizeTriple.induct with
  | case1 rest ih =>
    intro h4
    simp only [show sanitizeTriple ('`' :: '`' :: '`' :: rest)
      = '`' :: '​' :: '`' :: '`' :: sanitizeTriple rest from by simp [sanitizeTriple]]
    simp [pyIn, List.isPrefixOf] at h4 ⊢
    obtain ⟨hp1, hp2, hp3, hp4⟩ := h4
    refine ⟨bt_prefix_sanitize rest hp1, ?_, ih hp4⟩
    rcases rest with _ | ⟨d, r⟩
    · simp [sanitizeTriple]
    · have hd : d ≠ '`' := by
        intro e
        subst e
        simp [List.isPrefixOf] at hp1
      rw [sanitizeTriple_cons_ne d r hd]
      simp [List.isPrefixOf]
      exact fun e => absurd e.symm hd
  | case2 c rest h ih =>
    intro h4
    have h4' : pyIn "````".data rest = false := by
      simp [pyIn] at h4
      exact h4.2
    by_cases hc : c = '`'
    · subst hc
      rcases rest with _ | ⟨d, r⟩
      · simp [sanitizeTriple, pyIn, List.isPrefixOf]
      · by_cases hd : d = '`'
        · subst hd
          have hr : ['`'].isPrefixOf r = false := by
            rcases r with _ | ⟨e, r2⟩
            · simp [List.isPrefixOf]
            · have he : e ≠ '`' := by
                intro hee
                subst hee
                exact h r2 rfl rfl
              simp [List.isPrefixOf]
              exact fun hee => absurd hee.symm he
          have hsan : sanitizeTriple ('`' :: r) = '`' :: sanitizeTriple r := by
            rcases r with _ | ⟨e, r2⟩
            · exact sanitizeTriple_bt_nil
            · have he : e ≠ '`' := by
                intro hee
                subst hee
                simp [List.isPrefixOf] at hr
              exact sanitizeTriple_bt_cons e r2 he
          have hsan2 : sanitizeTriple ('`' :: '`' :: r)
              = '`' :: ('`' :: sanitizeTriple r) := by
            rcases r with _ | ⟨e, r2⟩
            · simp [sanitizeTriple]
            · have he : e ≠ '`' := by
                intro hee
                subst hee
                simp [List.isPrefixOf] at hr
              rw [sanitizeTriple_bt_bt_cons e r2 he]
              rw [sanitizeTriple_bt_cons e r2 he]
          rw [hsan2]
          have hih := ih h4'
          rw [hsan] at hih
          simp [pyIn, List.isPrefixOf] at hih ⊢
          obtain ⟨hih1, hih2⟩ := hih
          exact ⟨bt_prefix_sanitize r hr, hih1, hih2⟩
        · rw [sanitizeTriple_bt_cons d r hd]
          have hih := ih h4'
          rw [sanitizeTriple_cons_ne d r hd] at hih
          rw [sanitizeTriple_cons_ne d r hd]
          simp [pyIn, List.isPrefixOf, Ne.symm hd] at hih ⊢
          exact hih
    · rw [sanitizeTriple_cons_ne c rest hc]
      have hih := ih h4'
      simp [pyIn, List.isPrefixOf, Ne.symm hc] at hih ⊢
      exact hih
  | case3 =>
    intro h4
    simp [sanitizeTriple, pyIn]

set_option maxRecDepth 8192 in
/-- **C6 (counterexample).** The holistic summary prompt does *not*
neutralize triple backticks: with snippet ```` ``` ```` it contains three
```` ``` ```` occurrences instead of the two fence markers, so its fenced
block is broken.  (A well-formed prompt, e.g. with the empty snippet, has
exactly two.)  Moreover even the per-comment escaping is imperfect: a
four-backtick run still leaves a ```` ``` ```` after `safe_code`. -/
theorem summaryPrompt_fence_broken :
    tripleCount (summaryPrompt "```" [] "python").data = 3 ∧
      tripleCount (summaryPrompt "" [] "python").data = 2 ∧
      pyIn "```".data ("```" : String).data = true ∧
      pyIn "```".data (safe_code "````").data = true := by
  refine ⟨by decide, by decide, by decide, by decide⟩

/-- **C6 (amended).** The per-comment feedback prompt embeds the snippet
only through `safe_code` (each left-to-right ```` ``` ```` replaced by
`` `\u200b`` ``), which removes every triple backtick provided the snippet
has no run of four backticks; the holistic summary prompt embeds the
snippet verbatim, with no neutralization. -/
theorem prompt_backtick_handling (code_snippet original_comment language severity :
    String) (all_feedback : List JValue)
    (h : pyIn "````".data code_snippet.data = false) :
    pyIn "```".data (safe_code code_snippet).data = false ∧
    feedbackPrompt code_snippet original_comment language severity
      = fpPart1 ++ language ++ fpPart2 ++ language ++ "\n" ++ safe_code code_snippet
        ++ fpPart3 ++ original_comment ++ fpPart4 ++ resourceHint language
        ++ fpPart5 ++ tone_instruction severity ++ fpPart6 ∧
    summaryPrompt code_snippet all_feedback language
      = spPart1 ++ language ++ spPart2 ++ language ++ "\n" ++ code_snippet
        ++ spPart3 ++ toString all_feedback.length ++ spPart4 := by
  refine ⟨?_, rfl, rfl⟩
  exact sanitize_no_triple code_snippet.data h

/-- Witness for `prompt_backtick_handling` at a concrete snippet with two
isolated triple backticks. -/
theorem prompt_backtick_handling_witness :
    pyIn "````".data ("x``` mid ```y" : String).data = false ∧
      pyIn "```".data (safe_code "x``` mid ```y").data = false :=
  ⟨by decide,
    (prompt_backtick_handling "x``` mid ```y" "c" "python" "harsh" [] (by decide)).1⟩

set_option maxRecDepth 8192 in
/-- **C8 (counterexample).** In the exported report the resource link is
never rendered as a Markdown hyperlink, even when it is a well-formed URL:
the document contains the bracketed link `[https://…]` and no `](`
anywhere. -/
theorem markdownExport_no_hyperlink :
    pyIn "](".data (markdownExport "2025-01-01 00:00:00" "python" "code"
        [("c", [("positive_rephrasing", "p"), ("the_why", "w"),
                ("suggested_improvement", "s"),
                ("resource_link", "https://docs.python.org/3/tutorial/")])]
        "sum").data = false ∧
    pyIn "[https://docs.python.org/3/tutorial/]".data
      (markdownExport "2025-01-01 00:00:00" "python" "code"
        [("c", [("positive_rephrasing", "p"), ("the_why", "w"),
                ("suggested_improvement", "s"),
                ("resource_link", "https://docs.python.org/3/tutorial/")])]
        "sum").data = true := by
  refine ⟨by decide, by decide⟩

/-- **C8 (amended).** The exported document is, in order: the
title/timestamp header, the original snippet in a language-tagged fenced
block, one section per comment (numbered from 1, in input order, listing
the four FeedbackItem fields), then the holistic summary; within each
section the resource link is always rendered inside square brackets,
regardless of whether it is a URL. -/
theorem markdownExport_structure (ts language code_snippet summary : String)
    (pairs : List (String × List (String × String))) :
    markdownExport ts language code_snippet pairs summary
      = "# \uf8ffüåü Empathetic Code Review Report\n\nGenerated on: "
        ++ ts ++ "\n\n## Original Code (" ++ pyTitle language ++ ")\n\n```"
        ++ language ++ "\n" ++ code_snippet
        ++ "\n```\n\n## Constructive Feedback\n\n"
        ++ exportSections language 1 pairs
        ++ "## \uf8ffüéâ Summary\n\n" ++ summary
        ++ "\n\n*Happy coding! \uf8ffüöÄ*\n" ∧
    (∀ (i : Nat) (c : String) (fb : List (String × String)) rest,
      exportSections language i ((c, fb) :: rest)
        = exportSection language i c fb ++ exportSections language (i + 1) rest) ∧
    (∀ (i : Nat) (c : String) (fb : List (String × String)),
      ∃ pre, exportSection language i c fb
        = pre ++ "[" ++ pyGet fb "resource_link" "" ++ "]\n\n---\n\n") := by
  refine ⟨rfl, fun i c fb rest => rfl, fun i c fb => ?_⟩
  refine ⟨"### \uf8ffüí° Analysis of Comment " ++ toString i ++ ": \""
    ++ c
    ++ "\"\n\n**\uf8ffü§ù Positive Rephrasing:** "
    ++ pyGet fb "positive_rephrasing" ""
    ++ "\n\n**\uf8ffüß† The 'Why':** "
    ++ pyGet fb "the_why" ""
    ++ "\n\n**\uf8ffüîß Suggested Improvement:**\n```"
    ++ language ++ "\n" ++ pyGet fb "suggested_improvement" ""
    ++ "\n```\n\n**\uf8ffüìö Learn More:** ", ?_⟩
  simp [exportSection, String.append_assoc]

/-- **C10.** `MockGroq._mock_create` depends only on the content of the
first user-role message: any two calls with the same first user content
but different system messages, model identifiers, temperatures or
`max_tokens` return the identical completion text.  (Determinism across
runs is immediate: the embedding is a pure function.) -/
theorem mock_create_uniform {α β γ α2 β2 γ2 : Type}
    (m1 m2 : Option (List Msg)) (model1 : α) (t1 : β) (k1 : γ)
    (model2 : α2) (t2 : β2) (k2 : γ2)
    (h : firstUserContent m1 = firstUserContent m2) :
    mock_create m1 model1 t1 k1 = mock_create m2 model2 t2 k2 := by
  simp only [mock_create, h]

/-- Witness for `mock_create_uniform`: same user message, different
system message, model and sampling parameters. -/
theorem mock_create_uniform_witness :
    firstUserContent (some [⟨"system", "be strict"⟩,
        ⟨"user", "Respond only with valid JSON."⟩])
      = firstUserContent (some [⟨"system", "be nice"⟩,
        ⟨"user", "Respond only with valid JSON."⟩]) ∧
    mock_create (some [⟨"system", "be strict"⟩,
        ⟨"user", "Respond only with valid JSON."⟩]) "llama3-8b-8192"
        (25 : Nat) (900 : Nat)
      = mock_create (some [⟨"system", "be nice"⟩,
        ⟨"user", "Respond only with valid JSON."⟩]) "other-model"
        (40 : Nat) (300 : Nat) :=
  ⟨rfl, mock_create_uniform _ _ "llama3-8b-8192" 25 900 "other-model" 40 300 rfl⟩

end CodeReviewer
